import Mathlib

set_option maxRecDepth 20000

/-
Verification of the court repository's IRC/HTTP bridge ("horatio" and
"yorick" programs). Definitions are a shallow embedding of the Go source:
pure functions mirror the corresponding Go functions, channel/select loops
become functions over explicit event traces, and Go panics (out-of-range
indexing, closing a closed channel) become the `none` branch of an
`Option`-valued embedding.
-/

/-- Embedding of `irc.Message` (Prefix, Command, Params). The Go `Prefix`
field is named `origin` here. -/
structure Message where
  origin : String
  command : String
  params : List String
deriving DecidableEq, Repr

/-- The action the bridging dispatcher takes for one inbound message
(main.go, the message loop in `main`): reply with a PONG, discard, or
deliver a channel-message event to the event-delivery collaborator. -/
inductive DispatchAction where
  | pong (payload : String)
  | discard
  | deliver (channel user text : String)
deriving DecidableEq, Repr

/-- The messages a dispatch action enqueues onto the send queue
(main.go: `client.writeChan <- irc.Message{Command: "PONG", ...}`). -/
def DispatchAction.sends : DispatchAction → List Message
  | .pong p => [⟨"", "PONG", [p]⟩]
  | .discard => []
  | .deliver _ _ _ => []

/-- What a dispatch action forwards to the event-delivery collaborator
(main.go: `dispatchEvent(args.url, m)` builds the event from
`m.Params[0]`, `m.Prefix`, `m.Params[1]`). -/
def DispatchAction.delivers : DispatchAction → Option (String × String × String)
  | .deliver ch u t => some (ch, u, t)
  | _ => none

/-- One iteration of the dispatcher loop (main.go lines 45-66, identical in
both program variants), total over all messages: `none` is the Go panic
branch of `m.Params[0]`, `m.Params[0][0]` and (inside `dispatchEvent` /
`dispatchMessageEvent`) `m.Params[1]`, none of which are guarded by a
length check in the source. -/
def dispatchStep (m : Message) : Option DispatchAction :=
  if m.command = "PING" then
    match m.params with
    | [] => none
    | p :: _ => some (DispatchAction.pong p)
  else if m.command = "PRIVMSG" then
    match m.params with
    | [] => none
    | target :: rest =>
      match target.data with
      | [] => none
      | c :: _ =>
        if c ≠ '#' then some DispatchAction.discard
        else
          match rest with
          | [] => none
          | text :: _ => some (DispatchAction.deliver target m.origin text)
  else some DispatchAction.discard

/-- Claim C2: for every inbound PING with payload `p` popped from the
receive queue, the dispatcher enqueues exactly one PONG carrying the same
payload `p` onto the send queue, and forwards nothing for that message to
the event-delivery collaborator. -/
theorem dispatch_ping_pongs_same_payload (pfx p : String) (rest : List String) :
    dispatchStep ⟨pfx, "PING", p :: rest⟩ = some (DispatchAction.pong p) ∧
    (DispatchAction.pong p).sends = [⟨"", "PONG", [p]⟩] ∧
    (DispatchAction.pong p).delivers = none := by
  refine ⟨?_, rfl, rfl⟩
  simp [dispatchStep]

/-- Modelled from the spec: the parameter part of the Line Codec's wire
format `[:prefix ]COMMAND [param ...][ :trailing]` — parameters joined by
single spaces, the trailing parameter written with the `:` marker when it
is empty or contains embedded whitespace. The codec itself
(`irc.Message.Encode` from the external github.com/horgh/irc dependency)
is not part of this repository's sources. -/
def encodeParams : List String → String
  | [] => ""
  | [p] => if p = "" || p.data.contains ' ' then " :" ++ p else " " ++ p
  | p :: rest => " " ++ p ++ encodeParams rest

/-- Modelled from the spec: the full CRLF-terminated wire line for a
message, before any length enforcement. -/
def encodeRaw (m : Message) : String :=
  (if m.origin = "" then "" else ":" ++ m.origin ++ " ") ++
    m.command ++ encodeParams m.params ++ "\r\n"

/-- Modelled from the spec: `Encode` with the 512-byte maximum line length.
A line within the limit is returned unchanged; a longer line is truncated
deterministically (to 510 characters plus CRLF) and the distinguished
truncated indicator — the Go `irc.ErrTruncated` — is reported as the
Boolean component. -/
def encode (m : Message) : String × Bool :=
  let s := encodeRaw m
  if s.length ≤ 512 then (s, false)
  else (String.mk (s.data.take 510) ++ "\r\n", true)

/-- `IRCClient.writeMessage` (irccclient.go lines 181-205): encode, then
write the buffer to the socket. The source checks
`err != nil && err != irc.ErrTruncated`, so the truncated indicator is
discarded and the (possibly truncated) buffer is written; `some line`
means the line was written in full and `nil` (success) was returned. The
deadline, short-write and flush error paths concern the live socket and
are modelled as succeeding. -/
def writeMessage (m : Message) : Option String :=
  some (encode m).1

/-- Claim C3 counterexample: a PRIVMSG whose encoding is 613 bytes. The
encoder reports truncation, yet `writeMessage` writes the truncated line
and reports success, and the written line is not the full encoding —
silent data loss, contradicting the claim that the write path never
writes a truncated line while reporting success. -/
theorem writeMessage_silent_truncation_counterexample :
    (encode ⟨"", "PRIVMSG", ["#c", String.mk (List.replicate 600 'a')]⟩).2
        = true ∧
    writeMessage ⟨"", "PRIVMSG", ["#c", String.mk (List.replicate 600 'a')]⟩
        = some (encode ⟨"", "PRIVMSG",
            ["#c", String.mk (List.replicate 600 'a')]⟩).1 ∧
    (encode ⟨"", "PRIVMSG", ["#c", String.mk (List.replicate 600 'a')]⟩).1
        ≠ encodeRaw ⟨"", "PRIVMSG", ["#c", String.mk (List.replicate 600 'a')]⟩
    := by
  refine ⟨by decide, rfl, by decide⟩

/-- Claim C3 amended: for every message whose raw encoding exceeds the
512-byte maximum, the encoder truncates deterministically and reports the
truncated indicator, but `writeMessage` discards that indicator: it
writes the truncated line and returns success. -/
theorem writeMessage_truncates_silently (m : Message)
    (h : 512 < (encodeRaw m).length) :
    (encode m).2 = true ∧
    writeMessage m = some (String.mk ((encodeRaw m).data.take 510) ++ "\r\n") ∧
    writeMessage m ≠ some (encodeRaw m) := by
  have hle : ¬ (encodeRaw m).length ≤ 512 := by omega
  have henc : encode m =
      (String.mk ((encodeRaw m).data.take 510) ++ "\r\n", true) := by
    simp only [encode]
    rw [if_neg hle]
  refine ⟨by rw [henc], by simp [writeMessage, henc], ?_⟩
  simp only [writeMessage, henc, Option.some.injEq, ne_eq]
  intro hcontra
  have hlen : (String.mk ((encodeRaw m).data.take 510) ++ "\r\n").length =
      (encodeRaw m).length := congrArg String.length hcontra
  have hdata : (encodeRaw m).data.length = (encodeRaw m).length := rfl
  have hcat : (String.mk ((encodeRaw m).data.take 510) ++ "\r\n").length =
      ((encodeRaw m).data.take 510).length + 2 := by
    show (((encodeRaw m).data.take 510) ++ "\r\n".data).length = _
    rw [List.length_append]
    rfl
  have htake : ((encodeRaw m).data.take 510).length = 510 := by
    rw [List.length_take]
    omega
  omega

/-- Witness for `writeMessage_truncates_silently` at the 613-byte PRIVMSG. -/
theorem writeMessage_truncates_silently_witness :
    512 < (encodeRaw ⟨"", "PRIVMSG",
        ["#c", String.mk (List.replicate 600 'a')]⟩).length ∧
    (encode ⟨"", "PRIVMSG", ["#c", String.mk (List.replicate 600 'a')]⟩).2
      = true :=
  ⟨by decide,
   (writeMessage_truncates_silently
     ⟨"", "PRIVMSG", ["#c", String.mk (List.replicate 600 'a')]⟩
     (by decide)).1⟩

/-- One outcome of the `select` in `IRCClient.init` / `Client.init`
(irccclient.go lines 88-108, main.go lines 204-223): the 5-second timeout
fires, the read channel is found closed, or a message arrives. -/
inductive RegEvent where
  | timeout
  | closed
  | msg (m : Message)
deriving DecidableEq, Repr

/-- The result `init` returns: `ok` is the `nil` return (001 received),
the others are the three `fmt.Errorf` returns. -/
inductive InitResult where
  | ok
  | timedOut
  | chanClosed
  | unexpected (m : Message)
deriving DecidableEq, Repr

/-- Whether a select outcome is an ignorable NOTICE message
(irccclient.go line 102: `if m.Command == "NOTICE" { continue }`). -/
def isNotice : RegEvent → Bool
  | .msg m => m.command == "NOTICE"
  | _ => false

/-- The wait loop of `IRCClient.init` over a trace of select outcomes
(irccclient.go lines 88-108): a timeout or a closed read channel fails,
"001" succeeds, "NOTICE" is skipped, anything else fails with the
unexpected-message error. `none` means the trace ended with the loop still
waiting. -/
def initLoop : List RegEvent → Option InitResult
  | [] => none
  | RegEvent.timeout :: _ => some InitResult.timedOut
  | RegEvent.closed :: _ => some InitResult.chanClosed
  | RegEvent.msg m :: rest =>
    if m.command = "001" then some InitResult.ok
    else if m.command = "NOTICE" then initLoop rest
    else some (InitResult.unexpected m)

/-- The three messages `IRCClient.init` writes to the send queue before
entering its wait loop (irccclient.go lines 71-84). -/
def initSends (nick channel : String) : List Message :=
  [⟨"", "NICK", [nick]⟩,
   ⟨"", "USER", [nick, nick, "0", nick]⟩,
   ⟨"", "JOIN", [channel]⟩]

/-- `IRCClient.init` as a whole: the enqueued registration messages, then
the wait-loop result over the trace of select outcomes. `Open`
(`NewIRCClient`) returns a usable client exactly when this result is
`some .ok`. -/
def clientInit (nick channel : String) (events : List RegEvent) :
    List Message × Option InitResult :=
  (initSends nick channel, initLoop events)

/-- Claim C1: during registration, NOTICE messages are skipped; if the
first non-NOTICE event is a message whose command is "001" the handshake
succeeds, and if it is any other message the handshake fails immediately
with the unexpected-message error, regardless of anything later in the
trace (in particular without waiting for the timeout event). -/
theorem init_first_non_notice_decides (pre : List RegEvent) (m : Message)
    (rest : List RegEvent)
    (hpre : ∀ x ∈ pre, isNotice x = true)
    (hm : m.command ≠ "NOTICE") :
    initLoop (pre ++ RegEvent.msg m :: rest) =
      some (if m.command = "001" then InitResult.ok
            else InitResult.unexpected m) := by
  induction pre with
  | nil =>
    by_cases h : m.command = "001"
    · simp [initLoop, h]
    · simp [initLoop, h, hm]
  | cons x pre ih =>
    have hx : isNotice x = true := hpre x (List.mem_cons_self x pre)
    cases x with
    | timeout => simp [isNotice] at hx
    | closed => simp [isNotice] at hx
    | msg mm =>
      have hmm : mm.command = "NOTICE" := by
        simpa [isNotice] using hx
      have h001 : mm.command ≠ "001" := by simp [hmm]
      simp only [List.cons_append, initLoop, if_neg h001, if_pos hmm]
      exact ih (fun y hy => hpre y (List.mem_cons_of_mem _ hy))

/-- Witness for `init_first_non_notice_decides` at a concrete trace: one
NOTICE, then "001", with a timeout event still pending in the trace. -/
theorem init_first_non_notice_decides_witness :
    (∀ x ∈ [RegEvent.msg ⟨"irc.example", "NOTICE", ["*", "hello"]⟩],
      isNotice x = true) ∧
    initLoop [RegEvent.msg ⟨"irc.example", "NOTICE", ["*", "hello"]⟩,
              RegEvent.msg ⟨"irc.example", "001", ["bot", "welcome"]⟩,
              RegEvent.timeout] =
      some InitResult.ok :=
  ⟨by decide,
   init_first_non_notice_decides
     [RegEvent.msg ⟨"irc.example", "NOTICE", ["*", "hello"]⟩]
     ⟨"irc.example", "001", ["bot", "welcome"]⟩
     [RegEvent.timeout] (by decide) (by decide)⟩

/-- Claim C6: on entering registration, `init` enqueues exactly the NICK,
USER and JOIN messages, in that order, onto the send queue, before its
wait loop consumes any event. -/
theorem init_enqueues_nick_user_join (nick channel : String)
    (events : List RegEvent) :
    (clientInit nick channel events).1 =
      [⟨"", "NICK", [nick]⟩,
       ⟨"", "USER", [nick, nick, "0", nick]⟩,
       ⟨"", "JOIN", [channel]⟩] ∧
    (clientInit nick channel events).1.map Message.command =
      ["NICK", "USER", "JOIN"] :=
  ⟨rfl, rfl⟩

/-- Claim C9: the dispatcher loop indexes message parameters without a
length check, so the panic branch (`none`) of the embedding is reached by
a PING with no parameters, a PRIVMSG with fewer than two parameters, and a
PRIVMSG whose first parameter is the empty string. -/
theorem dispatch_unchecked_indexing_panics :
    dispatchStep ⟨"", "PING", []⟩ = none ∧
    dispatchStep ⟨"alice!u@h", "PRIVMSG", ["#general"]⟩ = none ∧
    dispatchStep ⟨"alice!u@h", "PRIVMSG", [""]⟩ = none := by
  refine ⟨?_, ?_, ?_⟩ <;> decide

/-- The result of one iteration of `IRCClient.readMessage` (irccclient.go
lines 137-154): the parse of one line succeeded, succeeded with the
distinguished `irc.ErrTruncated` indicator carrying a best-effort message,
or failed with some other parse error. -/
inductive ParseOutcome where
  | ok (m : Message)
  | truncated (m : Message)
  | failed
deriving DecidableEq, Repr

/-- One event seen by the read loop: a line arrived and parsed with the
given outcome, or the socket read itself failed (deadline expiry, peer
disconnect). -/
inductive ReadEvent where
  | line (p : ParseOutcome)
  | ioErr
deriving DecidableEq, Repr

/-- The message `readMessage` returns for an event, if any: the source
checks `err != nil && err != irc.ErrTruncated`, so both a clean parse and
a truncated parse yield the (best-effort) message. -/
def eventMsg : ReadEvent → Option Message
  | .line (.ok m) => some m
  | .line (.truncated m) => some m
  | .line .failed => none
  | .ioErr => none

/-- Whether an event makes `readMessage` return an error, ending the read
loop (irccclient.go lines 120-126). -/
def fatalEvent : ReadEvent → Bool
  | .ioErr => true
  | .line .failed => true
  | .line (.ok _) => false
  | .line (.truncated _) => false

/-- `IRCClient.reader` (irccclient.go lines 117-133) over a trace of read
events: the messages pushed to the receive queue, and whether the queue
was closed (end-of-stream signalled by `close(c.readChan)`). The loop
stops at the first fatal event; events after it are never consumed. -/
def readerRun : List ReadEvent → List Message × Bool
  | [] => ([], false)
  | ReadEvent.ioErr :: _ => ([], true)
  | ReadEvent.line ParseOutcome.failed :: _ => ([], true)
  | ReadEvent.line (ParseOutcome.ok m) :: rest =>
    ((readerRun rest).1.cons m, (readerRun rest).2)
  | ReadEvent.line (ParseOutcome.truncated m) :: rest =>
    ((readerRun rest).1.cons m, (readerRun rest).2)

/-- `IRCClient.Read` / `Receive` results against the queue contents and
closed flag, for a given number of calls: queued messages are returned in
order; once the queue has drained, a closed queue answers every further
call with `none` (the Go `ok=false`), while an unclosed queue blocks
(produces no further results). -/
def receiveResults : List Message → Bool → Nat → List (Option Message)
  | _, _, 0 => []
  | m :: q, closed, n + 1 => some m :: receiveResults q closed n
  | [], true, n + 1 => none :: receiveResults [] true n
  | [], false, _ + 1 => []

/-- Claim C8: a truncated-parse event is non-fatal and contributes its
best-effort message; for any trace of non-fatal events followed by a
fatal one, the read loop pushes exactly the messages of the non-fatal
events and then closes the receive queue, and once the queue has drained
every pending and subsequent Receive call returns `none` (ok=false). -/
theorem reader_truncation_soft_other_errors_fatal
    (pre : List ReadEvent) (e : ReadEvent) (post : List ReadEvent) (k : Nat)
    (hpre : ∀ x ∈ pre, fatalEvent x = false)
    (he : fatalEvent e = true) :
    (∀ m, eventMsg (ReadEvent.line (ParseOutcome.truncated m)) = some m) ∧
    readerRun (pre ++ e :: post) = (pre.filterMap eventMsg, true) ∧
    receiveResults [] true k = List.replicate k none := by
  refine ⟨fun m => rfl, ?_, ?_⟩
  · induction pre with
    | nil =>
      cases e with
      | ioErr => simp [readerRun]
      | line p =>
        cases p with
        | ok m => simp [fatalEvent] at he
        | truncated m => simp [fatalEvent] at he
        | failed => simp [readerRun]
    | cons x pre ih =>
      have hx : fatalEvent x = false := hpre x (List.mem_cons_self x pre)
      have hrest : ∀ y ∈ pre, fatalEvent y = false :=
        fun y hy => hpre y (List.mem_cons_of_mem x hy)
      cases x with
      | ioErr => simp [fatalEvent] at hx
      | line p =>
        cases p with
        | ok m =>
          rw [List.cons_append]
          show ((readerRun (pre ++ e :: post)).1.cons m,
                (readerRun (pre ++ e :: post)).2) =
            (List.filterMap eventMsg
              (ReadEvent.line (ParseOutcome.ok m) :: pre), true)
          rw [ih hrest]
          rfl
        | truncated m =>
          rw [List.cons_append]
          show ((readerRun (pre ++ e :: post)).1.cons m,
                (readerRun (pre ++ e :: post)).2) =
            (List.filterMap eventMsg
              (ReadEvent.line (ParseOutcome.truncated m) :: pre), true)
          rw [ih hrest]
          rfl
        | failed => simp [fatalEvent] at hx
  · induction k with
    | zero => rfl
    | succ k ih => simp [receiveResults, ih, List.replicate_succ]

/-- Witness for `reader_truncation_soft_other_errors_fatal`: a clean line,
a truncated line, then a hard parse failure; the two messages are pushed,
the queue is closed, and two further receives answer `none`. -/
theorem reader_truncation_soft_other_errors_fatal_witness :
    (∀ x ∈ [ReadEvent.line (ParseOutcome.ok ⟨"", "PING", ["x"]⟩),
            ReadEvent.line (ParseOutcome.truncated ⟨"a", "PRIVMSG", ["#c"]⟩)],
      fatalEvent x = false) ∧
    readerRun [ReadEvent.line (ParseOutcome.ok ⟨"", "PING", ["x"]⟩),
               ReadEvent.line (ParseOutcome.truncated ⟨"a", "PRIVMSG", ["#c"]⟩),
               ReadEvent.line ParseOutcome.failed] =
      ([⟨"", "PING", ["x"]⟩, ⟨"a", "PRIVMSG", ["#c"]⟩], true) ∧
    receiveResults [] true 2 = [none, none] :=
  ⟨by decide,
   (reader_truncation_soft_other_errors_fatal
      [ReadEvent.line (ParseOutcome.ok ⟨"", "PING", ["x"]⟩),
       ReadEvent.line (ParseOutcome.truncated ⟨"a", "PRIVMSG", ["#c"]⟩)]
      (ReadEvent.line ParseOutcome.failed) [] 2 (by decide) (by decide)).2.1,
   (reader_truncation_soft_other_errors_fatal
      [ReadEvent.line (ParseOutcome.ok ⟨"", "PING", ["x"]⟩),
       ReadEvent.line (ParseOutcome.truncated ⟨"a", "PRIVMSG", ["#c"]⟩)]
      (ReadEvent.line ParseOutcome.failed) [] 2 (by decide) (by decide)).2.2⟩

/-- The per-connection state relevant to `IRCClient.Close`
(irccclient.go lines 208-211): whether `writeChan` has been closed and
whether the socket has been closed. -/
structure ConnState where
  writeChanClosed : Bool
  socketClosed : Bool
deriving DecidableEq, Repr

/-- `IRCClient.Close`: `close(c.writeChan); _ = c.conn.Close()`. Closing an
already-closed Go channel panics, so the embedding returns `none` when
`writeChan` is already closed; otherwise both resources are marked
closed (`conn.Close` on a closed socket merely returns an error, which
the source ignores). -/
def closeClient (s : ConnState) : Option ConnState :=
  if s.writeChanClosed then none
  else some ⟨true, true⟩

/-- Claim C4 counterexample: a second `Close` after a completed first
`Close` hits the panic branch (`close` of a closed channel), so `Close`
is not idempotent. -/
theorem close_not_idempotent_counterexample :
    (closeClient ⟨false, false⟩).bind closeClient = none := by
  decide

/-- Claim C4 amended: the first `Close` of an open connection closes the
send queue and the socket; any further `Close` panics (returns the `none`
branch) because the send queue channel is already closed. -/
theorem close_once_then_panic (s : ConnState)
    (hopen : s.writeChanClosed = false) :
    closeClient s = some ⟨true, true⟩ ∧
    (∀ t : ConnState, t.writeChanClosed = true → closeClient t = none) := by
  constructor
  · simp [closeClient, hopen]
  · intro t ht
    simp [closeClient, ht]

/-- Witness for `close_once_then_panic` at the freshly-opened state. -/
theorem close_once_then_panic_witness :
    (ConnState.mk false false).writeChanClosed = false ∧
    closeClient ⟨false, false⟩ = some ⟨true, true⟩ :=
  ⟨rfl, (close_once_then_panic ⟨false, false⟩ rfl).1⟩

/-- The teardown steps a failing `Open` could take. -/
inductive CleanupAction where
  | closeSocket
  | closeWriteChan
  | joinLoops
deriving DecidableEq, Repr

/-- The teardown `NewIRCClient` actually performs when `init` fails
(irccclient.go lines 62-65): `_ = conn.Close(); return nil, err`. It
closes the socket and nothing else — it neither closes `writeChan` nor
waits on the WaitGroup before returning. -/
def openFailureCleanup : List CleanupAction := [CleanupAction.closeSocket]

/-- Whether the writer goroutine terminates after a given teardown: both
its consuming loop (`for m := range c.writeChan`) and its drain loop
(`for range c.writeChan`) exit only once `writeChan` is closed
(irccclient.go lines 161-177), which only `Close` does. -/
def writerTerminates (cleanup : List CleanupAction) : Bool :=
  cleanup.contains CleanupAction.closeWriteChan

/-- Claim C5 counterexample: after the teardown the failing `Open`
performs, the write loop has not terminated (its queue was never closed),
contradicting the claim that both loops have terminated before `Open`
returns. -/
theorem open_failure_leaves_writer_counterexample :
    writerTerminates openFailureCleanup = false := by
  decide

/-- Claim C5 amended: when `Open` fails, the socket is closed before
returning, but the write loop is not signalled to stop (its queue is
never closed, so the writer goroutine outlives the call) and neither loop
is joined. -/
theorem open_failure_closes_socket_only :
    openFailureCleanup.contains CleanupAction.closeSocket = true ∧
    writerTerminates openFailureCleanup = false ∧
    openFailureCleanup.contains CleanupAction.joinLoops = false := by
  decide

/-- The JSON body of a chat.postMessage request after `json.Unmarshal`
(app.go / webapi.go: `PostMessagePayload`). -/
structure PostMessagePayload where
  channel : String
  text : String
deriving DecidableEq, Repr

/-- An HTTP request as `postMessageHandler` observes it: the method, and
the body's parse result — `none` covers both an unreadable body and
invalid JSON, the two 400 branches after the method check. -/
structure HttpRequest where
  method : String
  body : Option PostMessagePayload
deriving DecidableEq, Repr

/-- An HTTP response: status code and body text. -/
structure HttpResponse where
  status : Nat
  body : String
deriving DecidableEq, Repr

/-- The serialized success envelope `APIResponse{OK: true}`. -/
def okBody : String := "\x7b\"ok\":true\x7d"

/-- `App.postMessageHandler` / `WebAPI.postMessageHandler` (app.go lines
50-97, webapi.go lines 55-102): the messages written to the client and
the HTTP response. Non-POST methods and unparseable bodies answer 400
with no send; otherwise exactly one PRIVMSG with the payload's channel
and text is sent and the success envelope is written (Go's implicit
status 200 on the first `Write`). Marshalling the fixed `APIResponse`
cannot fail, so the 500 branch is unreachable and not modelled. -/
def postMessageHandler (r : HttpRequest) : List Message × HttpResponse :=
  if r.method ≠ "POST" then ([], ⟨400, ""⟩)
  else
    match r.body with
    | none => ([], ⟨400, ""⟩)
    | some p => ([⟨"", "PRIVMSG", [p.channel, p.text]⟩], ⟨200, okBody⟩)

/-- Claim C7: a POST whose body parses to `{channel, text}` produces
exactly one send of `PRIVMSG channel text` and a 200 response with body
`{"ok":true}`; a non-POST method or a malformed body produces a 400
response and no send. -/
theorem postMessage_success_and_errors :
    (∀ ch txt, postMessageHandler ⟨"POST", some ⟨ch, txt⟩⟩ =
      ([⟨"", "PRIVMSG", [ch, txt]⟩], ⟨200, okBody⟩)) ∧
    (∀ meth body, meth ≠ "POST" →
      postMessageHandler ⟨meth, body⟩ = ([], ⟨400, ""⟩)) ∧
    postMessageHandler ⟨"POST", none⟩ = ([], ⟨400, ""⟩) := by
  refine ⟨fun ch txt => ?_, fun meth body hm => ?_, ?_⟩
  · simp [postMessageHandler]
  · simp [postMessageHandler, hm]
  · simp [postMessageHandler]

/-- Witness for `postMessage_success_and_errors`: a GET is rejected with
400, and a well-formed POST sends one PRIVMSG and answers 200. -/
theorem postMessage_success_and_errors_witness :
    ("GET" ≠ "POST") ∧
    postMessageHandler ⟨"GET", none⟩ = ([], ⟨400, ""⟩) ∧
    postMessageHandler ⟨"POST", some ⟨"#general", "hi"⟩⟩ =
      ([⟨"", "PRIVMSG", ["#general", "hi"]⟩], ⟨200, okBody⟩) :=
  ⟨by decide,
   postMessage_success_and_errors.2.1 "GET" none (by decide),
   postMessage_success_and_errors.1 "#general" "hi"⟩

/-- The claim/release mini-protocol's shared state (src/unnamed/part_006:
the package-level `var whohas string` and `var taken bool`). -/
structure LabState where
  whohas : String
  taken : Bool
deriving DecidableEq, Repr

/-- The zero-value initial state of the package-level variables. -/
def initialLab : LabState := ⟨"", false⟩

/-- `take` (part_006 lines 56-76): when not taken, record the requesting
user as holder; when already taken, leave the state unchanged (only the
reply text differs). -/
def take (user : String) (s : LabState) : LabState :=
  if s.taken then s else ⟨user, true⟩

/-- `release` (part_006 lines 78-98): clear both fields only when taken
and the requesting user equals the current holder; otherwise leave the
state unchanged. -/
def release (user : String) (s : LabState) : LabState :=
  if s.taken ∧ user = s.whohas then ⟨"", false⟩ else s

/-- `status` (part_006 lines 40-54): reads the state to build a reply and
modifies nothing. -/
def status (s : LabState) : LabState := s

/-- One request to the mini-protocol, as dispatched by `messageEvent`
(part_006 lines 30-37). -/
inductive LabOp where
  | take (user : String)
  | release (user : String)
  | status
deriving DecidableEq, Repr

/-- Apply one operation to the state. -/
def applyOp : LabOp → LabState → LabState
  | .take u, s => take u s
  | .release u, s => release u s
  | .status, s => status s

/-- Run a sequence of operations from the initial state. -/
def runOps (ops : List LabOp) : LabState :=
  ops.foldl (fun s op => applyOp op s) initialLab

/-- The claimed invariant: the holder string is non-empty exactly when
the taken flag is set. -/
def labInvariant (s : LabState) : Prop :=
  s.taken = true ↔ s.whohas ≠ ""

instance (s : LabState) : Decidable (labInvariant s) := by
  unfold labInvariant
  infer_instance

/-- Whether an operation's requesting user string is non-empty when the
operation is a take. -/
def nonEmptyTakeUser : LabOp → Bool
  | .take u => u != ""
  | .release _ => true
  | .status => true

/-- Claim C10 counterexample: a take by the empty user string sets
`taken = true` while leaving `whohas = ""`, so the invariant
`taken = (whohas ≠ "")` fails after the one-operation sequence
`[take ""]`. -/
theorem lab_invariant_counterexample :
    ¬ labInvariant (runOps [LabOp.take ""]) := by
  decide

theorem labInvariant_step (op : LabOp) (s : LabState)
    (hop : nonEmptyTakeUser op = true) (hs : labInvariant s) :
    labInvariant (applyOp op s) := by
  cases op with
  | take u =>
    by_cases ht : s.taken
    · simpa [applyOp, take, ht] using hs
    · have hu : u ≠ "" := by simpa [nonEmptyTakeUser] using hop
      simp [applyOp, take, ht, labInvariant, hu]
  | release u =>
    by_cases hr : s.taken ∧ u = s.whohas
    · simp [applyOp, release, hr, labInvariant]
    · simpa [applyOp, release, hr] using hs
  | status => simpa [applyOp, status] using hs

theorem labInvariant_foldl (ops : List LabOp) :
    ∀ s : LabState, labInvariant s →
      (∀ op ∈ ops, nonEmptyTakeUser op = true) →
      labInvariant (ops.foldl (fun s op => applyOp op s) s) := by
  induction ops with
  | nil => intro s hs _; simpa using hs
  | cons op ops ih =>
    intro s hs hops
    simp only [List.foldl_cons]
    exact ih (applyOp op s)
      (labInvariant_step op s (hops op (List.mem_cons_self op ops)) hs)
      (fun y hy => hops y (List.mem_cons_of_mem op hy))

/-- Claim C10 amended: provided every take in the sequence carries a
non-empty requesting user string, the invariant `taken = (whohas ≠ "")`
holds after any sequence of take/release/status operations from the
initial state (status never modifies the state, take sets both fields
only when not taken, and release clears both fields only for the current
holder, as the definitions of these operations state). -/
theorem lab_invariant_nonempty_users (ops : List LabOp)
    (h : ∀ op ∈ ops, nonEmptyTakeUser op = true) :
    labInvariant (runOps ops) :=
  labInvariant_foldl ops initialLab (by simp [labInvariant, initialLab]) h

/-- Witness for `lab_invariant_nonempty_users` on a concrete
take/status/release sequence by a real user string. -/
theorem lab_invariant_nonempty_users_witness :
    (∀ op ∈ [LabOp.take "alice!u@h", LabOp.status, LabOp.release "alice!u@h"],
      nonEmptyTakeUser op = true) ∧
    labInvariant (runOps
      [LabOp.take "alice!u@h", LabOp.status, LabOp.release "alice!u@h"]) :=
  ⟨by decide,
   lab_invariant_nonempty_users
     [LabOp.take "alice!u@h", LabOp.status, LabOp.release "alice!u@h"]
     (by decide)⟩
